import Mathlib

set_option maxHeartbeats 1000000

/-!
Verification of the template-materialization pipeline of the
React-Vite-Boilerplate scaffolding CLI.

The development shallowly embeds the three behavioural components of the
repository:
  * the Template Builder  (`scripts/build-template.js`),
  * the Project Generator (`bin/cli.js`),
  * the CLI Test Harness  (`scripts/test-cli.js`).

Modelling conventions:
  * A filesystem directory is a list of named entries (`List (String × FsTree)`),
    mirroring `fs.readdirSync`; JSON documents are modelled by the inductive
    `Json` with objects as association lists in insertion order, mirroring
    `JSON.parse` / `JSON.stringify` on duplicate-free key sets.
  * File contents are either `FileData.jsonData j` (bytes that `JSON.parse`
    would parse to `j`) or `FileData.rawData s` (bytes that do not parse as
    JSON); this makes parseability a property of the value, byte-level
    encodings being out of scope.
  * Synchronous external effects (`execSync` for git and the package-manager
    install, an I/O fault during `fs.copySync`) are abstracted as boolean
    outcomes supplied in an environment record.
-/

/-- JSON values as produced by `JSON.parse`: objects are association lists in
insertion order. -/
inductive Json where
  | null : Json
  | bool (b : Bool) : Json
  | num (n : Int) : Json
  | str (s : String) : Json
  | arr (elems : List Json) : Json
  | obj (fields : List (String × Json)) : Json
deriving Repr

/-- Contents of a regular file: either bytes that parse as the JSON value
carried, or bytes that do not parse as JSON. -/
inductive FileData where
  | jsonData (j : Json) : FileData
  | rawData (s : String) : FileData
deriving Repr

/-- `JSON.parse` on the modelled file contents. -/
def parseJson : FileData → Option Json
  | .jsonData j => some j
  | .rawData _ => none

/-- A filesystem entry: a regular file or a directory of named entries
(`fs.readdirSync` order). -/
inductive FsTree where
  | file (data : FileData) : FsTree
  | dir (entries : List (String × FsTree)) : FsTree
deriving Repr

/-- Property read `o[k]` on a JS object modelled as an association list
(first binding wins; parsed JSON objects have unique keys). -/
def getField : List (String × Json) → String → Option Json
  | [], _ => none
  | (k', v') :: rest, k => if k' = k then some v' else getField rest k

/-- Property write `o[k] = v`: updates the binding in place if present
(keeping its position, as JS objects do), otherwise appends it. -/
def setField : List (String × Json) → String → Json → List (String × Json)
  | [], k, v => [(k, v)]
  | (k', v') :: rest, k, v =>
    if k' = k then (k, v) :: rest else (k', v') :: setField rest k v

/-- Property deletion `delete o[k]`. -/
def delField : List (String × Json) → String → List (String × Json)
  | [], _ => []
  | (k', v') :: rest, k =>
    if k' = k then delField rest k else (k', v') :: delField rest k

/-- Delete a list of properties in order. -/
def delFields (fields : List (String × Json)) (ks : List String) :
    List (String × Json) :=
  ks.foldl delField fields

/-- JS truthiness of a JSON value. -/
def jsonTruthy : Json → Bool
  | .null => false
  | .bool b => b
  | .num n => n ≠ 0
  | .str s => s ≠ ""
  | .arr _ => true
  | .obj _ => true

/-- Property read on an arbitrary JSON value: objects look up the key, every
other value yields `undefined` (modelled as `none`). -/
def jsGet : Json → String → Option Json
  | .obj fields, k => getField fields k
  | _, _ => none

/-- JS truthiness of a possibly-undefined value. -/
def jsTruthyOpt : Option Json → Bool
  | none => false
  | some v => jsonTruthy v

/-- `s.startsWith(pre)`, computed on the character lists (the executable
character-level semantics of the JS string operation). -/
def strStartsWith (s pre : String) : Bool :=
  List.isPrefixOf pre.toList s.toList

/-- `s.includes(c)` for a single character. -/
def strContains (s : String) (c : Char) : Bool :=
  s.toList.any fun a => a = c

/-- Whitespace characters removed by `String.prototype.trim`. -/
def isWSChar (c : Char) : Bool :=
  c = ' ' || c = '\t' || c = '\n' || c = '\r'

/-- `s.trim()`: strip leading and trailing whitespace. -/
def strTrim (s : String) : String :=
  ⟨((s.toList.dropWhile isWSChar).reverse.dropWhile isWSChar).reverse⟩

/-- Split a character list on `'/'` (helper for path splitting). -/
def splitSlashAux : List Char → List (List Char)
  | [] => [[]]
  | c :: rest =>
    let r := splitSlashAux rest
    if c = '/' then [] :: r
    else
      match r with
      | g :: gs => (c :: g) :: gs
      | [] => [[c]]

/-- Components of a POSIX relative path (what `path.join` with the project
root appends, segment by segment). -/
def pathComponents (s : String) : List String :=
  (splitSlashAux s.toList).map fun g => ⟨g⟩

/-- Directory lookup by entry name (`fs.existsSync` / open-by-name). -/
def lookupEntry : List (String × FsTree) → String → Option FsTree
  | [], _ => none
  | (m, node) :: rest, n => if m = n then some node else lookupEntry rest n

/-- Write an entry into a directory: replace the entry of that name in place
if present, otherwise append it (a plain file/directory write). -/
def setEntry : List (String × FsTree) → String → FsTree → List (String × FsTree)
  | [], n, v => [(n, v)]
  | (m, node) :: rest, n, v =>
    if m = n then (n, v) :: rest else (m, node) :: setEntry rest n v

/-- `fs.removeSync` of a named entry of a directory. -/
def removeEntry : List (String × FsTree) → String → List (String × FsTree)
  | [], _ => []
  | (m, node) :: rest, n =>
    if m = n then removeEntry rest n else (m, node) :: removeEntry rest n

mutual

/-- Whether a relative path names an existing entry at or below this node
(the empty path names the node itself). -/
def hasPathNode : FsTree → List String → Bool
  | _, [] => true
  | .file _, _ :: _ => false
  | .dir es, p => hasPath es p

/-- Whether a (non-empty) relative path, given as its components, names an
existing entry of the directory tree. -/
def hasPath : List (String × FsTree) → List String → Bool
  | _, [] => true
  | [], _ :: _ => false
  | (m, node) :: rest, n :: p =>
    (m = n && hasPathNode node p) || hasPath rest (n :: p)

end

/-! ## Template Builder (`scripts/build-template.js`) -/

/-- `excludePatterns` of `build-template.js`: files and directories to exclude
from the template. -/
def excludePatterns : List String :=
  ["node_modules", "dist", "build", ".git", ".env", ".env.local",
   ".env.development.local", ".env.test.local", ".env.production.local",
   "yarn.lock", "package-lock.json", "pnpm-lock.yaml", ".DS_Store",
   "Thumbs.db", "npm-debug.log", "yarn-debug.log", "yarn-error.log",
   "lerna-debug.log", "coverage", ".nyc_output", "playwright-report",
   "test-results", "storybook-static", ".storybook/manager-head.html",
   "bin", "scripts", "template"]

/-- Tokens of the regex built by `pattern.replace(/\*/g, ".*")`: a literal
character, the `.` wildcard, or `.*` (from a `*` in the pattern). -/
inductive Tok where
  | lit (c : Char) : Tok
  | dot : Tok
  | star : Tok
deriving Repr

/-- Tokenize a glob pattern into the regex it is turned into. -/
def toks (pattern : String) : List Tok :=
  pattern.toList.map fun c =>
    if c = '*' then Tok.star else if c = '.' then Tok.dot else Tok.lit c

/-- Match a token sequence against an initial segment of the character list
(regex matching starting at this position). -/
def matchHere : List Tok → List Char → Bool
  | [], _ => true
  | .star :: ts, s =>
    matchHere ts s ||
      (match s with
       | [] => false
       | _ :: s' => matchHere (Tok.star :: ts) s')
  | .dot :: ts, s =>
    (match s with
     | [] => false
     | _ :: s' => matchHere ts s')
  | .lit c :: ts, s =>
    (match s with
     | [] => false
     | c' :: s' => c = c' && matchHere ts s')
termination_by ts s => (ts.length, s.length)

/-- `new RegExp(pattern.replace(/\*/g, ".*")).test(relativePath)`: unanchored
search, so the token sequence may match starting at any position. -/
def globMatch (pattern relPath : String) : Bool :=
  (relPath.toList.tails).any fun s => matchHere (toks pattern) s

/-- Relative path string of a component list (POSIX separator). -/
def relPathString (comps : List String) : String :=
  String.intercalate "/" comps

/-- `path.basename`: last component of the path. -/
def baseName (comps : List String) : String :=
  (comps.getLast?).getD ""

/-- `shouldExclude(filePath, basePath)` of `build-template.js`, phrased on the
path of the entry relative to the source root, given as components: a glob
test for star-containing patterns, otherwise exact relative-path equality,
directory-prefix match, or base-name equality. -/
def shouldExclude (comps : List String) : Bool :=
  excludePatterns.any fun pattern =>
    if strContains pattern '*' then
      globMatch pattern (relPathString comps)
    else
      relPathString comps = pattern ||
        strStartsWith (relPathString comps) (pattern ++ "/") ||
        baseName comps = pattern

mutual

/-- The copy of one surviving node at relative path `path`: a file is
byte-copied, a directory is recreated and recursed into. -/
def copyNode (path : List String) : FsTree → FsTree
  | .file fd => .file fd
  | .dir es => .dir (copyEntries path es)

/-- `copyDirectory(src, dest)` of `build-template.js`, for the directory at
relative path `pre` from the source root: each entry whose relative path is
excluded is skipped entirely (no recursion into it); each surviving entry is
copied by `copyNode`. -/
def copyEntries (pre : List String) : List (String × FsTree) → List (String × FsTree)
  | [] => []
  | (name, node) :: rest =>
    if shouldExclude (pre ++ [name]) then copyEntries pre rest
    else (name, copyNode (pre ++ [name]) node) :: copyEntries pre rest

end

/-- CLI-only devDependencies removed from the template manifest. -/
def cliDevDeps : List String :=
  ["chalk", "commander", "fs-extra", "inquirer", "ora"]

/-- CLI-only scripts removed from the template manifest. -/
def cliOnlyScripts : List String :=
  ["prepublishOnly", "build-template", "test-cli"]

/-- `if (packageJson.devDependencies) { delete ... }` of
`processTemplateFiles`: when the `devDependencies` property is truthy and an
object, the five CLI-only entries are deleted from it. -/
def stripCliDevDeps (fields : List (String × Json)) : List (String × Json) :=
  match getField fields "devDependencies" with
  | some d =>
    if jsonTruthy d then
      match d with
      | Json.obj dd => setField fields "devDependencies" (Json.obj (delFields dd cliDevDeps))
      | _ => fields
    else fields
  | none => fields

/-- `if (packageJson.scripts) { delete ... }` of `processTemplateFiles`. -/
def stripCliScripts (fields : List (String × Json)) : List (String × Json) :=
  match getField fields "scripts" with
  | some s =>
    if jsonTruthy s then
      match s with
      | Json.obj ss => setField fields "scripts" (Json.obj (delFields ss cliOnlyScripts))
      | _ => fields
    else fields
  | none => fields

/-- The manifest rewrite performed by `processTemplateFiles` on the parsed
`package.json` object: delete `bin` and `files`, reset `name`, `version` and
`private`, then strip the CLI-only devDependencies and scripts. -/
def processManifestFields (fields : List (String × Json)) : List (String × Json) :=
  stripCliScripts (stripCliDevDeps
    (setField
      (setField
        (setField (delField (delField fields "bin") "files")
          "name" (Json.str "my-react-app"))
        "version" (Json.str "0.1.0"))
      "private" (Json.bool true)))

/-- The fixed `.gitignore` content written into the template by
`processTemplateFiles`. -/
def gitignoreContent : String :=
  "# Dependencies\nnode_modules/\n.pnp\n.pnp.js\n\n# Testing\ncoverage/\n"
    ++ ".nyc_output/\nplaywright-report/\ntest-results/\n\n# Production\n"
    ++ "build/\ndist/\n\n# Environment variables\n.env\n.env.local\n"
    ++ ".env.development.local\n.env.test.local\n.env.production.local\n\n"
    ++ "# Logs\nnpm-debug.log*\nyarn-debug.log*\nyarn-error.log*\n"
    ++ "lerna-debug.log*\n\n# Runtime data\npids\n*.pid\n*.seed\n*.pid.lock\n\n"
    ++ "# IDE\n.vscode/\n.idea/\n*.swp\n*.swo\n\n# OS\n.DS_Store\n.DS_Store?\n"
    ++ "._*\n.Spotlight-V100\n.Trashes\nehthumbs.db\nThumbs.db\n\n# Storybook\n"
    ++ "storybook-static/\n\n# MSW\npublic/mockServiceWorker.js\n\n# Husky\n"
    ++ ".husky/_/\n"

/-- The fixed `README.md` content written into the template by
`processTemplateFiles` (the `\x7b\x7bPROJECT_NAME\x7d\x7d` placeholder is the
literal brace-delimited placeholder of the source). -/
def readmeContent : String :=
  "# \x7b\x7bPROJECT_NAME\x7d\x7d\n\nA modern, production-ready React application built with the React Vite Boilerplate.\n\n"
    ++ "## 🚀 Getting Started\n\n### Prerequisites\n\n- **Node.js** 20+\n- **npm/yarn/pnpm** (latest version)\n\n"
    ++ "### Installation\n\n1. **Install dependencies**\n   ```bash\n   npm install\n   # or\n   yarn install\n   # or\n   pnpm install\n   ```\n\n"
    ++ "2. **Set up environment variables**\n   ```bash\n   cp .env.example .env\n   ```\n\n"
    ++ "3. **Start development server**\n   ```bash\n   npm run dev\n   # or\n   yarn dev\n   # or\n   pnpm dev\n   ```\n\n"
    ++ "4. **Open your browser**\n   Navigate to [http://localhost:3000](http://localhost:3000)\n\n"
    ++ "## 📜 Available Scripts\n\n### Development\n- `npm run dev` - Start development server\n- `npm run build` - Build for production\n- `npm run preview` - Preview production build\n- `npm run generate` - Generate new components\n\n"
    ++ "### Testing\n- `npm run test` - Run unit tests\n- `npm run test-e2e` - Run E2E tests\n- `npm run storybook` - Start Storybook\n\n"
    ++ "### Code Quality\n- `npm run lint` - Run ESLint\n- `npm run check-types` - Type checking\n\n"
    ++ "## 📚 Documentation\n\n- **[Architecture Documentation](./docs/README.md)** - Comprehensive architecture guide\n- **[Security Guide](./docs/SECURITY.md)** - Security implementation details\n- **[Development Guide](./docs/DEVELOPMENT.md)** - Development workflow and tools\n- **[Deployment Guide](./docs/DEPLOYMENT.md)** - Build and deployment strategies\n\n"
    ++ "## ✨ Features\n\n- 🚀 **React 18** with TypeScript and Vite\n- 🔐 **Authentication** with JWT and role-based access control\n- 🎨 **TailwindCSS** with Radix UI components\n- 📊 **TanStack Query** for server state management\n- 🧪 **Comprehensive Testing** with Vitest and Playwright\n- 📚 **Storybook** for component development\n- 🔧 **Developer Tools** with ESLint, Prettier, and Husky\n\n"
    ++ "## 🏗️ Project Structure\n\n```\nsrc/\n├── app/                    # App configuration and routing\n├── components/             # Reusable UI components\n├── features/              # Feature-based modules\n├── hooks/                 # Custom React hooks\n├── lib/                   # Utility libraries\n├── testing/               # Testing utilities\n├── types/                 # TypeScript type definitions\n└── utils/                 # Utility functions\n```\n\n"
    ++ "## 🤝 Contributing\n\n1. Fork the repository\n2. Create your feature branch (`git checkout -b feature/amazing-feature`)\n3. Commit your changes (`git commit -m \x27Add amazing feature\x27`)\n4. Push to the branch (`git push origin feature/amazing-feature`)\n5. Open a Pull Request\n\n"
    ++ "## 📄 License\n\nThis project is licensed under the MIT License.\n"

/-- `processTemplateFiles()` of `build-template.js`, acting on the freshly
copied template directory: rewrite `package.json` when it exists (a missing
manifest is skipped silently; an unparseable one makes `JSON.parse` throw; a
parsed non-object primitive makes the strict-mode property assignment throw;
a directory of that name makes `readFileSync` throw; a parsed array survives,
`JSON.stringify` dropping the named properties added to it), then overwrite
`.gitignore` and `README.md` with fixed content. -/
def processTemplateFiles (tpl : List (String × FsTree)) :
    Except String (List (String × FsTree)) :=
  let step1 : Except String (List (String × FsTree)) :=
    match lookupEntry tpl "package.json" with
    | some (.file fd) =>
      match parseJson fd with
      | some (Json.obj fields) =>
        .ok (setEntry tpl "package.json"
          (.file (.jsonData (Json.obj (processManifestFields fields)))))
      | some (Json.arr elems) =>
        .ok (setEntry tpl "package.json" (.file (.jsonData (Json.arr elems))))
      | some _ => .error "TypeError: Cannot create property on a primitive value"
      | none => .error "SyntaxError: Unexpected token in JSON"
    | some (.dir _) => .error "EISDIR: illegal operation on a directory, read"
    | none => .ok tpl
  match step1 with
  | .error e => .error e
  | .ok tpl₁ =>
    .ok (setEntry (setEntry tpl₁ ".gitignore" (.file (.rawData gitignoreContent)))
      "README.md" (.file (.rawData readmeContent)))

/-- `buildTemplate()` of `build-template.js`, acting on the entries of the
repository root: remove any existing `template` directory, copy the root
(minus exclusions) into a fresh `template` directory, then process the
template files. Returns the updated root entries, or the error on which the
top-level `.catch` would exit non-zero. -/
def buildTemplate (root : List (String × FsTree)) :
    Except String (List (String × FsTree)) :=
  let root₁ := removeEntry root "template"
  let out := copyEntries [] root₁
  match processTemplateFiles out with
  | .ok out' => .ok (setEntry root₁ "template" (.dir out'))
  | .error e => .error e

/-- Process exit code of one `build-template.js` run: `0` on success, `1` via
the top-level `.catch` otherwise. -/
def buildExitCode (root : List (String × FsTree)) : Nat :=
  match buildTemplate root with
  | .ok _ => 0
  | .error _ => 1

/-- The `template` directory produced by a successful build. -/
def builtTemplateOf (root : List (String × FsTree)) : List (String × FsTree) :=
  match processTemplateFiles (copyEntries [] (removeEntry root "template")) with
  | .ok out' => out'
  | .error _ => []

/-! ## Project Generator (`bin/cli.js`) -/

/-- The `validate` callback of the interactive project-name prompt: non-empty
after trimming, and matching `/^[a-zA-Z0-9-_]+$/`. -/
def isNameChar (c : Char) : Bool :=
  ('a' ≤ c && c ≤ 'z') || ('A' ≤ c && c ≤ 'Z') || ('0' ≤ c && c ≤ '9') ||
    c = '-' || c = '_'

/-- Whether a string matches `/^[a-zA-Z0-9-_]+$/`. -/
def matchesNamePattern (s : String) : Bool :=
  !(s = "") && s.toList.all isNameChar

/-- `validate` of the project-name prompt of `createProject`: `true` exactly
when neither of its two error branches fires. -/
def validateProjectName (input : String) : Bool :=
  !(strTrim input = "") && matchesNamePattern input

/-- Commander options of `bin/cli.js` (`--template` defaults to `"full"`,
`--package-manager` to `"npm"`; the skip flags default to absent). -/
structure CliOptions where
  tmpl : String
  packageManager : String
  skipInstall : Bool
  skipGit : Bool
deriving Repr

/-- The answers the interactive prompts would return.  `none` models a prompt
that was skipped by its `when:` guard (its key is then absent from `answers`);
the project-name prompt re-asks until `validateProjectName` holds, so
`projectName` is the eventually accepted answer. -/
structure PromptAnswers where
  projectName : String
  packageManager : Option String
  installDependencies : Option Bool
  initializeGit : Option Bool
  setupEnvironment : Bool
  overwrite : Bool
deriving Repr

/-- Outcomes of the synchronous external effects of a generation run. -/
structure ExternalEnv where
  envCopyFails : Bool
  gitCmdsOk : Bool
  installOk : Bool
deriving Repr

/-- One user-visible report line of a run (spinner results, chalk output). -/
inductive Event where
  | stepOk (msg : String) : Event
  | stepWarn (msg : String) : Event
  | stepFail (msg : String) : Event
  | info (msg : String) : Event
  | cancelled (msg : String) : Event
  | done (msg : String) : Event
deriving Repr, DecidableEq

/-- Observable result of one `createProject` run: the process exit code, the
final entries of the working directory, and the report lines. -/
structure RunResult where
  exitCode : Nat
  cwd : List (String × FsTree)
  events : List Event
deriving Repr

/-- `if (!projectName)`: a missing or empty (falsy) positional argument falls
back to the interactive prompt. -/
def resolveName (arg : Option String) (prompted : String) : String :=
  match arg with
  | some s => if s = "" then prompted else s
  | none => prompted

/-- `options.packageManager || answers.packageManager || "npm"`. -/
def resolvePM (optPM : String) (ansPM : Option String) : String :=
  if optPM = "" then
    match ansPM with
    | some p => if p = "" then "npm" else p
    | none => "npm"
  else optPM

/-- The manifest-rename step of `createProject`: if `package.json` exists at
the target, parse it, assign `name`, and write it back (a missing manifest is
a silent no-op; parse failures and strict-mode assignment to a primitive
throw to the top-level handler; an array survives with `JSON.stringify`
dropping the added property). -/
def manifestStep (projectName : String) (target : List (String × FsTree)) :
    Except String (List (String × FsTree)) :=
  match lookupEntry target "package.json" with
  | none => .ok target
  | some (.dir _) => .error "EISDIR: illegal operation on a directory, read"
  | some (.file fd) =>
    match parseJson fd with
    | none => .error "SyntaxError: Unexpected token in JSON"
    | some (Json.obj fields) =>
      .ok (setEntry target "package.json"
        (.file (.jsonData (Json.obj (setField fields "name" (Json.str projectName))))))
    | some (Json.arr elems) =>
      .ok (setEntry target "package.json" (.file (.jsonData (Json.arr elems))))
    | some _ => .error "TypeError: Cannot create property on a primitive value"

/-- The environment-setup step: when enabled, copy `.env.example` to `.env`
if the example exists, and report success; only a thrown I/O error during the
attempted copy downgrades the spinner to a warning.  When the example file is
absent no copy is attempted and the spinner still reports success. -/
def envStep (setupEnv : Bool) (ext : ExternalEnv)
    (target : List (String × FsTree)) : List (String × FsTree) × List Event :=
  if setupEnv then
    match lookupEntry target ".env.example" with
    | some node =>
      if ext.envCopyFails then
        (target, [.stepWarn "Could not set up environment variables"])
      else
        (setEntry target ".env" node, [.stepOk "Environment variables set up"])
    | none => (target, [.stepOk "Environment variables set up"])
  else (target, [])

/-- The git-initialization step: `git init` / `git add` / `git commit`, any
failure caught and reported as a warning.  (The `.git` metadata created inside
the target is not modelled; no claim depends on it.) -/
def gitStep (initGit : Bool) (ext : ExternalEnv) : List Event :=
  if initGit then
    if ext.gitCmdsOk then [.stepOk "Git repository initialized"]
    else [.stepWarn "Could not initialize git repository"]
  else []

/-- The dependency-install step: run the install command of the chosen
package manager (an unknown manager makes `execSync(undefined)` throw); on
any failure print the failed spinner and the manual-recovery instructions.
(The `node_modules` tree created inside the target is not modelled.) -/
def installStep (installDeps : Bool) (pm projectName : String)
    (ext : ExternalEnv) : List Event :=
  if installDeps then
    if (pm = "npm" || pm = "yarn" || pm = "pnpm") && ext.installOk then
      [.stepOk "Dependencies installed"]
    else
      [.stepFail "Failed to install dependencies",
       .info "You can install dependencies manually by running:",
       .info ("cd " ++ projectName ++ " && " ++ pm ++ " install")]
  else []

/-- The final summary of `createProject` (the parts that depend on the run's
configuration; the remaining fixed feature/documentation lines are constant
decoration). -/
def doneEvents (installDeps : Bool) (pm projectName : String) : List Event :=
  [.done "Project created successfully!", .info ("cd " ++ projectName)]
    ++ (if installDeps then [] else [.info (pm ++ " install")])
    ++ [.info (pm ++ " dev")]

/-- The tail of `createProject` after the target check: copy the template to
the target, rename the manifest (fatal on error, via the `.action` catch that
exits with code 1), then run the three optional steps and print the summary. -/
def finishRun (projectName pm : String) (installDeps initGit setupEnv : Bool)
    (ext : ExternalEnv) (cwd₀ tpl : List (String × FsTree)) : RunResult :=
  match manifestStep projectName tpl with
  | .error e =>
    { exitCode := 1
      cwd := setEntry cwd₀ projectName (.dir tpl)
      events := [.stepOk "Template files copied",
                 .info ("Error creating project: " ++ e)] }
  | .ok target₁ =>
    let te := envStep setupEnv ext target₁
    { exitCode := 0
      cwd := setEntry cwd₀ projectName (.dir te.1)
      events := [.stepOk "Template files copied"] ++ te.2 ++ gitStep initGit ext
        ++ installStep installDeps pm projectName ext
        ++ doneEvents installDeps pm projectName }

/-- `createProject(projectName, options)` of `bin/cli.js`, as observed at
process level: resolve the name and configuration, check the target, then
either cancel cleanly on a declined overwrite or run the generation steps.
`cwd` is the invoking directory's entries and `tpl` the entries of the
pre-built template shipped with the tool. -/
def runCreateProject (arg : Option String) (opts : CliOptions)
    (ans : PromptAnswers) (ext : ExternalEnv)
    (cwd tpl : List (String × FsTree)) : RunResult :=
  let projectName := resolveName arg ans.projectName
  if (lookupEntry cwd projectName).isSome && !ans.overwrite then
    { exitCode := 0, cwd := cwd, events := [.cancelled "Project creation cancelled."] }
  else
    finishRun projectName
      (resolvePM opts.packageManager ans.packageManager)
      ((!opts.skipInstall) && !(ans.installDependencies == some false))
      ((!opts.skipGit) && !(ans.initializeGit == some false))
      ans.setupEnvironment ext
      (if (lookupEntry cwd projectName).isSome then removeEntry cwd projectName else cwd)
      tpl

/-- The `name` field of the manifest of the directory named `dirName` under
`cwd`, when that manifest exists and parses. -/
def manifestNameAt (cwd : List (String × FsTree)) (dirName : String) : Option Json :=
  match lookupEntry cwd dirName with
  | some (.dir es) =>
    match lookupEntry es "package.json" with
    | some (.file fd) =>
      match parseJson fd with
      | some j => jsGet j "name"
      | none => none
    | _ => none
  | _ => none

/-! ## CLI Test Harness (`scripts/test-cli.js`) -/

/-- The fixed project name the harness generates. -/
def testProjectName : String := "test-cli-project"

/-- `essentialFiles` of `testCLI`: relative paths asserted to exist. -/
def essentialFiles : List String :=
  ["package.json", "src/main.tsx", "src/app/app.tsx", "index.html",
   "vite.config.ts", "tailwind.config.cjs", ".env.example", "docs/README.md"]

/-- First essential file missing from the generated project, in assertion
order (`none` when all exist). -/
def firstMissing (files : List (String × FsTree)) : List String → Option String
  | [] => none
  | f :: rest =>
    if hasPath files (pathComponents f) then firstMissing files rest else some f

/-- External-world outcomes of one harness run: whether `build-template` and
the CLI invocation throw, whether the CLI leaves a project directory behind,
and the contents of that directory; the opt-in install/build phase. -/
structure HarnessEnv where
  buildThrows : Bool
  cliThrows : Bool
  cliCreatesDir : Bool
  projectFiles : List (String × FsTree)
  testInstall : Bool
  installThrows : Bool
  buildProjThrows : Bool
deriving Repr

/-- Observable result of one harness run: exit code, whether the test project
directory is still on disk afterwards, and the failure printed (if any). -/
structure HarnessResult where
  exitCode : Nat
  dirPresent : Bool
  failureMsg : Option String
deriving Repr

/-- `testCLI()` of `scripts/test-cli.js`: after the initial cleanup of any
pre-existing test directory, every thrown error — including every assertion
failure — lands in the `catch` inside `testCLI`, which prints the failure and
calls `process.exit(1)` without invoking `cleanup()`; the outer
`testCLI().catch(...)` (which would clean up) is therefore never reached, and
`cleanup()` otherwise runs only on SIGINT/SIGTERM. -/
def runTestCLI (env : HarnessEnv) : HarnessResult :=
  if env.buildThrows then
    { exitCode := 1, dirPresent := false, failureMsg := some "build-template failed" }
  else if env.cliThrows then
    { exitCode := 1, dirPresent := env.cliCreatesDir,
      failureMsg := some "cli invocation failed" }
  else if !env.cliCreatesDir then
    { exitCode := 1, dirPresent := false,
      failureMsg := some "Test project was not created" }
  else
    match firstMissing env.projectFiles essentialFiles with
    | some f =>
      { exitCode := 1, dirPresent := true,
        failureMsg := some ("Essential file missing: " ++ f) }
    | none =>
      match lookupEntry env.projectFiles "package.json" with
      | some (.file fd) =>
        match parseJson fd with
        | some j =>
          if !(match jsGet j "name" with
               | some (Json.str s) => s = testProjectName
               | _ => false) then
            { exitCode := 1, dirPresent := true,
              failureMsg := some "Package name not updated" }
          else if jsTruthyOpt (jsGet j "bin") || jsTruthyOpt (jsGet j "files") then
            { exitCode := 1, dirPresent := true,
              failureMsg := some "CLI-specific fields not removed from package.json" }
          else if env.testInstall && env.installThrows then
            { exitCode := 1, dirPresent := true, failureMsg := some "npm install failed" }
          else if env.testInstall && env.buildProjThrows then
            { exitCode := 1, dirPresent := true, failureMsg := some "npm run build failed" }
          else
            { exitCode := 0, dirPresent := true, failureMsg := none }
        | none =>
          { exitCode := 1, dirPresent := true,
            failureMsg := some "JSON.parse failed on package.json" }
      | _ =>
        { exitCode := 1, dirPresent := true,
          failureMsg := some "package.json unreadable" }

/-! ## Concrete inputs used by witnesses and counterexamples -/

/-- Options of a `--skip-install --skip-git` invocation. -/
def exOptsSkip : CliOptions :=
  { tmpl := "full", packageManager := "npm", skipInstall := true, skipGit := true }

/-- Options of a plain invocation (no skip flags). -/
def exOptsFull : CliOptions :=
  { tmpl := "full", packageManager := "npm", skipInstall := false, skipGit := false }

/-- Answers of a run whose prompts are all answered with defaults. -/
def exAnsDefaults : PromptAnswers :=
  { projectName := "my-react-app", packageManager := none,
    installDependencies := none, initializeGit := none,
    setupEnvironment := true, overwrite := false }

/-- Answers of a run that declines the environment-setup prompt. -/
def exAnsNoEnv : PromptAnswers :=
  { projectName := "my-react-app", packageManager := none,
    installDependencies := none, initializeGit := none,
    setupEnvironment := false, overwrite := false }

/-- An external world where every command succeeds. -/
def exExtOk : ExternalEnv :=
  { envCopyFails := false, gitCmdsOk := true, installOk := true }

/-- An external world where the package-manager install fails. -/
def exExtInstallFails : ExternalEnv :=
  { envCopyFails := false, gitCmdsOk := true, installOk := false }

/-- A small template carrying a JSON-object manifest and no `.env.example`. -/
def exTplNoEnv : List (String × FsTree) :=
  [("package.json", .file (.jsonData (Json.obj [("name", Json.str "my-react-app"),
     ("version", Json.str "0.1.0")]))),
   ("index.html", .file (.rawData "<html></html>"))]

/-- A source tree used by the C3 witness: an excluded dependency cache next
to an ordinary source directory. -/
def exC3Tree : List (String × FsTree) :=
  [("node_modules", .dir [("lib", .dir [("x.js", .file (.rawData "cached"))])]),
   ("src", .dir [("main.tsx", .file (.rawData "app"))])]

/-- A repository root without any `package.json`, used against C5. -/
def exRootNoManifest : List (String × FsTree) :=
  [("src", .dir [("main.tsx", .file (.rawData "code"))]),
   ("index.html", .file (.rawData "<html></html>"))]

/-- A repository root whose `package.json` does not parse as JSON. -/
def exRootRawManifest : List (String × FsTree) :=
  [("package.json", .file (.rawData "not json at all")),
   ("index.html", .file (.rawData "<html></html>"))]

/-- A well-formed repository root, used by the C6 witness. -/
def exRootOk : List (String × FsTree) :=
  [("package.json", .file (.jsonData (Json.obj
     [("name", Json.str "react-vite-boilerplate"),
      ("version", Json.str "1.0.0"),
      ("bin", Json.obj [("create-react-vite-boilerplate", Json.str "./bin/cli.js")]),
      ("files", Json.arr [Json.str "template", Json.str "bin"])]))),
   ("src", .dir [("main.tsx", .file (.rawData "code"))]),
   ("node_modules", .dir [("chalk", .dir [])])]

/-- The root entries produced by the first successful build on `exRootOk`. -/
def exBuiltOk : List (String × FsTree) :=
  match buildTemplate exRootOk with
  | .ok r => r
  | .error _ => []

/-- A harness world where the generated manifest kept the wrong name: every
essential file exists, but `package.json`'s `name` was not updated. -/
def exHarnessWrongName : HarnessEnv :=
  { buildThrows := false, cliThrows := false, cliCreatesDir := true,
    projectFiles :=
      [("package.json", .file (.jsonData (Json.obj [("name", Json.str "my-react-app")]))),
       ("src", .dir [("main.tsx", .file (.rawData "m")),
                     ("app", .dir [("app.tsx", .file (.rawData "a"))])]),
       ("index.html", .file (.rawData "h")),
       ("vite.config.ts", .file (.rawData "v")),
       ("tailwind.config.cjs", .file (.rawData "t")),
       (".env.example", .file (.rawData "e")),
       ("docs", .dir [("README.md", .file (.rawData "r"))])],
    testInstall := false, installThrows := false, buildProjThrows := false }

/-- A harness world where an essential file is missing. -/
def exHarnessMissingFile : HarnessEnv :=
  { buildThrows := false, cliThrows := false, cliCreatesDir := true,
    projectFiles :=
      [("package.json", .file (.jsonData (Json.obj [("name", Json.str "test-cli-project")]))),
       ("src", .dir [("main.tsx", .file (.rawData "m")),
                     ("app", .dir [("app.tsx", .file (.rawData "a"))])]),
       ("index.html", .file (.rawData "h"))],
    testInstall := false, installThrows := false, buildProjThrows := false }

/-- A working directory already containing an entry with the default project
name. -/
def exCwdExisting : List (String × FsTree) :=
  [("my-react-app", FsTree.dir [("keep.txt", .file (.rawData "existing content"))])]

/-! ## Association-list and directory lemmas -/

theorem getField_delField_self (f : List (String × Json)) (k : String) :
    getField (delField f k) k = none := by
  induction f with
  | nil => rfl
  | cons hd tl ih =>
    obtain ⟨k', v'⟩ := hd
    by_cases h : k' = k
    · simpa [delField, h] using ih
    · simpa [delField, getField, h] using ih

theorem getField_delField_ne (f : List (String × Json)) (k k' : String)
    (h : ¬ k = k') : getField (delField f k') k = getField f k := by
  have h' : ¬ k' = k := fun e => h e.symm
  induction f with
  | nil => rfl
  | cons hd tl ih =>
    obtain ⟨k₀, v₀⟩ := hd
    by_cases h₀ : k₀ = k'
    · subst h₀
      simpa [delField, getField, h'] using ih
    · by_cases hk : k₀ = k
      · subst hk
        simp [delField, getField, h₀, h]
      · simpa [delField, getField, h₀, hk] using ih

theorem getField_setField_self (f : List (String × Json)) (k : String) (v : Json) :
    getField (setField f k v) k = some v := by
  induction f with
  | nil => simp [setField, getField]
  | cons hd tl ih =>
    obtain ⟨k₀, v₀⟩ := hd
    by_cases h₀ : k₀ = k
    · simp [setField, getField, h₀]
    · simpa [setField, getField, h₀] using ih

theorem getField_setField_ne (f : List (String × Json)) (k k' : String) (v : Json)
    (h : ¬ k = k') : getField (setField f k' v) k = getField f k := by
  induction f with
  | nil =>
    have : ¬ k' = k := fun hk => h hk.symm
    simp [setField, getField, this]
  | cons hd tl ih =>
    obtain ⟨k₀, v₀⟩ := hd
    by_cases h₀ : k₀ = k'
    · have h' : ¬ k' = k := fun hk => h hk.symm
      subst h₀
      simp [setField, getField, h']
    · by_cases hk : k₀ = k
      · subst hk
        simp [setField, getField, h₀, h]
      · simpa [setField, getField, h₀, hk] using ih

theorem lookupEntry_setEntry_self (es : List (String × FsTree)) (n : String)
    (v : FsTree) : lookupEntry (setEntry es n v) n = some v := by
  induction es with
  | nil => simp [setEntry, lookupEntry]
  | cons hd tl ih =>
    obtain ⟨m, node⟩ := hd
    by_cases h : m = n
    · simp [setEntry, lookupEntry, h]
    · simpa [setEntry, lookupEntry, h] using ih

theorem lookupEntry_setEntry_ne (es : List (String × FsTree)) (m n : String)
    (v : FsTree) (h : ¬ m = n) :
    lookupEntry (setEntry es n v) m = lookupEntry es m := by
  induction es with
  | nil =>
    have : ¬ n = m := fun hk => h hk.symm
    simp [setEntry, lookupEntry, this]
  | cons hd tl ih =>
    obtain ⟨m₀, node⟩ := hd
    by_cases h₀ : m₀ = n
    · have h' : ¬ n = m := fun hk => h hk.symm
      subst h₀
      simp [setEntry, lookupEntry, h']
    · by_cases hm : m₀ = m
      · subst hm
        simp [setEntry, lookupEntry, h₀, h]
      · simpa [setEntry, lookupEntry, h₀, hm] using ih

theorem removeEntry_setEntry (es : List (String × FsTree)) (n : String)
    (v : FsTree) : removeEntry (setEntry es n v) n = removeEntry es n := by
  induction es with
  | nil => simp [setEntry, removeEntry]
  | cons hd tl ih =>
    obtain ⟨m, node⟩ := hd
    by_cases h : m = n
    · simp [setEntry, removeEntry, h]
    · simpa [setEntry, removeEntry, h] using ih

theorem removeEntry_removeEntry (es : List (String × FsTree)) (n : String) :
    removeEntry (removeEntry es n) n = removeEntry es n := by
  induction es with
  | nil => rfl
  | cons hd tl ih =>
    obtain ⟨m, node⟩ := hd
    by_cases h : m = n
    · simpa [removeEntry, h] using ih
    · simpa [removeEntry, h] using ih

theorem getField_stripCliDevDeps (f : List (String × Json)) (k : String)
    (h : ¬ k = "devDependencies") :
    getField (stripCliDevDeps f) k = getField f k := by
  unfold stripCliDevDeps
  cases hdd : getField f "devDependencies" with
  | none => simp [hdd]
  | some d =>
    by_cases ht : jsonTruthy d
    · cases d <;> simp [hdd, ht, getField_setField_ne _ _ _ _ h]
    · simp [hdd, ht]

theorem getField_stripCliScripts (f : List (String × Json)) (k : String)
    (h : ¬ k = "scripts") :
    getField (stripCliScripts f) k = getField f k := by
  unfold stripCliScripts
  cases hs : getField f "scripts" with
  | none => simp [hs]
  | some s =>
    by_cases ht : jsonTruthy s
    · cases s <;> simp [hs, ht, getField_setField_ne _ _ _ _ h]
    · simp [hs, ht]

theorem copyEntries_cons (pre : List String) (name : String) (node : FsTree)
    (rest : List (String × FsTree)) :
    copyEntries pre ((name, node) :: rest) =
      if shouldExclude (pre ++ [name]) then copyEntries pre rest
      else (name, copyNode (pre ++ [name]) node) :: copyEntries pre rest := rfl

theorem hasPath_cons (m : String) (node : FsTree) (rest : List (String × FsTree))
    (n : String) (p : List String) :
    hasPath ((m, node) :: rest) (n :: p) =
      ((m = n && hasPathNode node p) || hasPath rest (n :: p)) := rfl

/-- Core exclusion invariant of the copy phase: every path present in the
output of `copyEntries` has no non-empty ancestor (itself included) whose
relative path is excluded. -/
theorem copyEntries_no_excluded (pre : List String) (es : List (String × FsTree)) :
    ∀ p, hasPath (copyEntries pre es) p = true →
      ∀ q r, p = q ++ r → ¬ q = [] → shouldExclude (pre ++ q) = false := by
  refine copyEntries.induct
    (fun path node => ∀ p, hasPathNode (copyNode path node) p = true →
      ∀ q r, p = q ++ r → ¬ q = [] → shouldExclude (path ++ q) = false)
    (fun pre es => ∀ p, hasPath (copyEntries pre es) p = true →
      ∀ q r, p = q ++ r → ¬ q = [] → shouldExclude (pre ++ q) = false)
    ?fileCase ?dirCase ?nilCase ?excCase ?keepCase pre es
  case fileCase =>
    intro path fd p hp q r hpq hq
    cases p with
    | nil =>
      cases q with
      | nil => exact absurd rfl hq
      | cons a q' => simp at hpq
    | cons a p' => simp [copyNode, hasPathNode] at hp
  case dirCase =>
    intro path es' ih p hp q r hpq hq
    cases p with
    | nil =>
      cases q with
      | nil => exact absurd rfl hq
      | cons a q' => simp at hpq
    | cons a p' =>
      simp only [copyNode, hasPathNode] at hp
      exact ih (a :: p') hp q r hpq hq
  case nilCase =>
    intro pre p hp q r hpq hq
    cases p with
    | nil =>
      cases q with
      | nil => exact absurd rfl hq
      | cons a q' => simp at hpq
    | cons a p' => simp [copyEntries, hasPath] at hp
  case excCase =>
    intro pre name node rest hex ih p hp q r hpq hq
    rw [copyEntries_cons, if_pos hex] at hp
    exact ih p hp q r hpq hq
  case keepCase =>
    intro pre name node rest hnex ihnode ihrest p hp q r hpq hq
    rw [copyEntries_cons, if_neg hnex] at hp
    cases p with
    | nil =>
      cases q with
      | nil => exact absurd rfl hq
      | cons a q' => simp at hpq
    | cons a p' =>
      rw [hasPath_cons] at hp
      simp only [Bool.or_eq_true, Bool.and_eq_true, decide_eq_true_eq] at hp
      rcases hp with ⟨hname, hnode⟩ | hrest
      · cases q with
        | nil => exact absurd rfl hq
        | cons b q' =>
          simp only [List.cons_append, List.cons.injEq] at hpq
          obtain ⟨hb, htail⟩ := hpq
          subst hb hname
          cases q' with
          | nil => exact Bool.eq_false_iff.mpr hnex
          | cons c q'' =>
            have h2 := ihnode p' hnode (c :: q'') r htail (by simp)
            rw [List.append_assoc] at h2
            simpa using h2
      · exact ihrest (a :: p') hrest q r hpq hq

/-- C3 main statement: an entry whose relative path matches an exclusion rule
is not in the copy output, and neither is anything below it. -/
theorem copyDirectory_skips_excluded_subtrees (es : List (String × FsTree))
    (f p : List String) (hmatch : shouldExclude f = true)
    (hsub : ∃ r, p = f ++ r) :
    hasPath (copyEntries [] es) p = false := by
  obtain ⟨r, rfl⟩ := hsub
  by_contra hcontra
  have hp : hasPath (copyEntries [] es) (f ++ r) = true := by
    cases hh : hasPath (copyEntries [] es) (f ++ r) with
    | true => rfl
    | false => exact absurd hh hcontra
  have hf : ¬ f = [] := by
    intro h0
    subst h0
    have hempty : shouldExclude ([] : List String) = false := by decide
    rw [hempty] at hmatch
    exact Bool.false_ne_true hmatch
  have hfalse := copyEntries_no_excluded [] es (f ++ r) hp f r rfl hf
  rw [List.nil_append] at hfalse
  rw [hfalse] at hmatch
  exact Bool.false_ne_true hmatch

theorem manifestStep_obj (projectName : String) (target : List (String × FsTree))
    (fields : List (String × Json))
    (h : lookupEntry target "package.json" =
      some (.file (.jsonData (Json.obj fields)))) :
    manifestStep projectName target =
      .ok (setEntry target "package.json"
        (.file (.jsonData (Json.obj (setField fields "name" (Json.str projectName)))))) := by
  unfold manifestStep
  rw [h]
  rfl

theorem envStep_false (ext : ExternalEnv) (target : List (String × FsTree)) :
    envStep false ext target = (target, []) := rfl

theorem envStep_true_absent (ext : ExternalEnv) (target : List (String × FsTree))
    (h : lookupEntry target ".env.example" = none) :
    envStep true ext target = (target, [.stepOk "Environment variables set up"]) := by
  unfold envStep
  rw [h]
  rfl

/-- C2: after the Template Builder's manifest rewrite, the manifest contains
neither a `bin` nor a `files` key, whatever the input manifest contained. -/
theorem rewriteManifest_removes_bin_and_files (fields : List (String × Json)) :
    getField (processManifestFields fields) "bin" = none ∧
    getField (processManifestFields fields) "files" = none := by
  unfold processManifestFields
  constructor
  · rw [getField_stripCliScripts _ _ (by decide), getField_stripCliDevDeps _ _ (by decide),
      getField_setField_ne _ _ _ _ (by decide), getField_setField_ne _ _ _ _ (by decide),
      getField_setField_ne _ _ _ _ (by decide),
      getField_delField_ne (delField fields "bin") "bin" "files" (by decide)]
    exact getField_delField_self fields "bin"
  · rw [getField_stripCliScripts _ _ (by decide), getField_stripCliDevDeps _ _ (by decide),
      getField_setField_ne _ _ _ _ (by decide), getField_setField_ne _ _ _ _ (by decide),
      getField_setField_ne _ _ _ _ (by decide)]
    exact getField_delField_self (delField fields "bin") "files"

/-- C3 witness: the `node_modules` cache matches an exclusion rule, and its
contents are absent from the copy output. -/
theorem copyDirectory_skips_excluded_subtrees_w :
    shouldExclude ["node_modules"] = true ∧
    hasPath (copyEntries [] exC3Tree) ["node_modules", "lib", "x.js"] = false :=
  ⟨by decide,
   copyDirectory_skips_excluded_subtrees exC3Tree ["node_modules"]
     ["node_modules", "lib", "x.js"] (by decide) ⟨["lib", "x.js"], rfl⟩⟩

/-- C1: for a valid project name supplied as argument, with all optional
steps disabled, the run succeeds and the target directory's manifest `name`
field equals the supplied name. -/
theorem generator_sets_manifest_name (name : String)
    (opts : CliOptions) (ans : PromptAnswers) (ext : ExternalEnv)
    (cwd tpl : List (String × FsTree)) (fields : List (String × Json))
    (hvalid : validateProjectName name = true)
    (hfresh : lookupEntry cwd name = none)
    (hman : lookupEntry tpl "package.json" =
      some (.file (.jsonData (Json.obj fields))))
    (hskipI : opts.skipInstall = true) (hskipG : opts.skipGit = true)
    (hnoenv : ans.setupEnvironment = false) :
    (runCreateProject (some name) opts ans ext cwd tpl).exitCode = 0 ∧
    manifestNameAt (runCreateProject (some name) opts ans ext cwd tpl).cwd name =
      some (Json.str name) := by
  have hne : ¬ name = "" := by
    intro h0
    rw [h0] at hvalid
    have hv : validateProjectName "" = false := by decide
    rw [hv] at hvalid
    exact Bool.false_ne_true hvalid
  have hrun : runCreateProject (some name) opts ans ext cwd tpl =
      finishRun name (resolvePM opts.packageManager ans.packageManager)
        ((!opts.skipInstall) && !(ans.installDependencies == some false))
        ((!opts.skipGit) && !(ans.initializeGit == some false))
        ans.setupEnvironment ext cwd tpl := by
    simp [runCreateProject, resolveName, hne, hfresh]
  rw [hrun]
  rw [show ((!opts.skipInstall) && !(ans.installDependencies == some false)) = false by
    rw [hskipI]; rfl]
  rw [show ((!opts.skipGit) && !(ans.initializeGit == some false)) = false by
    rw [hskipG]; rfl]
  rw [hnoenv]
  unfold finishRun
  rw [manifestStep_obj name tpl fields hman]
  simp only [envStep_false, gitStep, installStep, doneEvents]
  constructor
  · trivial
  · unfold manifestNameAt
    simp [lookupEntry_setEntry_self, parseJson, jsGet, getField_setField_self]

/-- C4: when the target directory already exists and the user declines the
overwrite confirmation, the run stops with exit code 0, the filesystem
unchanged, and a cancellation (not a failure) reported. -/
theorem declined_overwrite_cancels_cleanly (arg : Option String)
    (opts : CliOptions) (ans : PromptAnswers) (ext : ExternalEnv)
    (cwd tpl : List (String × FsTree))
    (hexists : (lookupEntry cwd (resolveName arg ans.projectName)).isSome = true)
    (hdecline : ans.overwrite = false) :
    (runCreateProject arg opts ans ext cwd tpl).exitCode = 0 ∧
    (runCreateProject arg opts ans ext cwd tpl).cwd = cwd ∧
    (runCreateProject arg opts ans ext cwd tpl).events =
      [.cancelled "Project creation cancelled."] := by
  simp only [runCreateProject]
  rw [hexists, hdecline]
  exact ⟨rfl, rfl, rfl⟩

/-- C1 witness: a concrete valid name against a concrete template. -/
theorem generator_sets_manifest_name_w :
    validateProjectName "test-cli-project" = true ∧
    (runCreateProject (some "test-cli-project") exOptsSkip exAnsNoEnv exExtOk
        [] exTplNoEnv).exitCode = 0 ∧
    manifestNameAt (runCreateProject (some "test-cli-project") exOptsSkip
        exAnsNoEnv exExtOk [] exTplNoEnv).cwd "test-cli-project" =
      some (Json.str "test-cli-project") := by
  refine ⟨by decide, ?_, ?_⟩
  · exact (generator_sets_manifest_name "test-cli-project" exOptsSkip exAnsNoEnv
      exExtOk [] exTplNoEnv
      [("name", Json.str "my-react-app"), ("version", Json.str "0.1.0")]
      (by decide) rfl rfl rfl rfl rfl).1
  · exact (generator_sets_manifest_name "test-cli-project" exOptsSkip exAnsNoEnv
      exExtOk [] exTplNoEnv
      [("name", Json.str "my-react-app"), ("version", Json.str "0.1.0")]
      (by decide) rfl rfl rfl rfl rfl).2

/-- C4 witness: a concrete declined overwrite leaves everything unchanged. -/
theorem declined_overwrite_cancels_cleanly_w :
    (lookupEntry exCwdExisting (resolveName none exAnsDefaults.projectName)).isSome = true ∧
    exAnsDefaults.overwrite = false ∧
    (runCreateProject none exOptsSkip exAnsDefaults exExtOk exCwdExisting
        exTplNoEnv).exitCode = 0 ∧
    (runCreateProject none exOptsSkip exAnsDefaults exExtOk exCwdExisting
        exTplNoEnv).cwd = exCwdExisting ∧
    (runCreateProject none exOptsSkip exAnsDefaults exExtOk exCwdExisting
        exTplNoEnv).events = [.cancelled "Project creation cancelled."] := by
  refine ⟨rfl, rfl, ?_⟩
  exact declined_overwrite_cancels_cleanly none exOptsSkip exAnsDefaults exExtOk
    exCwdExisting exTplNoEnv rfl rfl

/-- C5 counterexample: with no manifest anywhere in the source tree, the
manifest is missing from the output directory, yet the build completes with
exit code 0 (the processing step is silently skipped), contradicting the
claim that a missing manifest fails the build fatally. -/
theorem build_succeeds_without_manifest_c :
    lookupEntry (copyEntries [] (removeEntry exRootNoManifest "template"))
      "package.json" = none ∧
    buildExitCode exRootNoManifest = 0 :=
  ⟨rfl, rfl⟩

/-- C5 (amended): if the manifest file is present in the copied output but is
not parseable, the build fails fatally with a non-zero exit; if the manifest
is missing, the rewrite step is skipped and the build exits 0. -/
theorem build_fails_on_unparseable_manifest (root : List (String × FsTree)) :
    (∀ s, lookupEntry (copyEntries [] (removeEntry root "template"))
        "package.json" = some (.file (.rawData s)) → buildExitCode root = 1) ∧
    (lookupEntry (copyEntries [] (removeEntry root "template"))
        "package.json" = none → buildExitCode root = 0) := by
  constructor
  · intro s h
    simp only [buildExitCode, buildTemplate, processTemplateFiles, h, parseJson]
  · intro h
    simp only [buildExitCode, buildTemplate, processTemplateFiles, h]

/-- C5 witness: a concrete unparseable manifest makes the build exit 1. -/
theorem build_fails_on_unparseable_manifest_w :
    lookupEntry (copyEntries [] (removeEntry exRootRawManifest "template"))
      "package.json" = some (.file (.rawData "not json at all")) ∧
    buildExitCode exRootRawManifest = 1 :=
  ⟨rfl,
   (build_fails_on_unparseable_manifest exRootRawManifest).1 "not json at all" rfl⟩

/-- C6: `buildTemplate` is idempotent: a second run from the root produced by
a successful first run succeeds and leaves the root (in particular the
`template` output tree) exactly as the first run did. -/
theorem buildTemplate_idempotent (root root' : List (String × FsTree))
    (h : buildTemplate root = Except.ok root') :
    buildTemplate root' = Except.ok root' := by
  simp only [buildTemplate] at h ⊢
  cases hp : processTemplateFiles (copyEntries [] (removeEntry root "template")) with
  | error e => rw [hp] at h; cases h
  | ok out' =>
    rw [hp] at h
    have hroot' : root' =
        setEntry (removeEntry root "template") "template" (.dir out') := by
      cases h; rfl
    subst hroot'
    rw [removeEntry_setEntry, removeEntry_removeEntry, hp]

/-- C6 witness: a concrete double build. -/
theorem buildTemplate_idempotent_w :
    buildTemplate exRootOk = Except.ok exBuiltOk ∧
    buildTemplate exBuiltOk = Except.ok exBuiltOk :=
  ⟨rfl, buildTemplate_idempotent exRootOk exBuiltOk rfl⟩

theorem finishRun_ok (projectName pm : String) (installDeps initGit setupEnv : Bool)
    (ext : ExternalEnv) (cwd₀ tpl target₁ : List (String × FsTree))
    (h : manifestStep projectName tpl = .ok target₁) :
    finishRun projectName pm installDeps initGit setupEnv ext cwd₀ tpl =
      { exitCode := 0
        cwd := setEntry cwd₀ projectName (.dir (envStep setupEnv ext target₁).1)
        events := [.stepOk "Template files copied"] ++ (envStep setupEnv ext target₁).2
          ++ gitStep initGit ext ++ installStep installDeps pm projectName ext
          ++ doneEvents installDeps pm projectName } := by
  unfold finishRun
  rw [h]

theorem stepWarn_notin_gitStep (msg : String) (g : Bool) (ext : ExternalEnv)
    (hne : ¬ msg = "Could not initialize git repository") :
    Event.stepWarn msg ∉ gitStep g ext := by
  cases g with
  | false => simp [gitStep]
  | true =>
    cases hg : ext.gitCmdsOk with
    | false => simp [gitStep, hg, hne]
    | true => simp [gitStep, hg]

theorem stepWarn_notin_installStep (msg : String) (b : Bool) (pm pn : String)
    (ext : ExternalEnv) : Event.stepWarn msg ∉ installStep b pm pn ext := by
  unfold installStep
  split_ifs <;> simp

theorem stepWarn_notin_doneEvents (msg : String) (b : Bool) (pm pn : String) :
    Event.stepWarn msg ∉ doneEvents b pm pn := by
  unfold doneEvents
  split_ifs <;> simp

/-- C7 counterexample: environment setup enabled, `.env.example` absent from
the template — the step reports success, and no environment warning appears,
contradicting the claim that absence yields a warning (not success). -/
theorem env_setup_absent_success_c :
    Event.stepOk "Environment variables set up" ∈
      (runCreateProject (some "my-app") exOptsSkip exAnsDefaults exExtOk
        [] exTplNoEnv).events ∧
    Event.stepWarn "Could not set up environment variables" ∉
      (runCreateProject (some "my-app") exOptsSkip exAnsDefaults exExtOk
        [] exTplNoEnv).events := by
  decide

/-- C7 (amended): when the environment-setup step runs and the example file
is absent, the step reports success (no copy is attempted, so no warning can
arise) and the run continues to completion with exit code 0. -/
theorem env_setup_absent_reports_success (name : String)
    (opts : CliOptions) (ans : PromptAnswers) (ext : ExternalEnv)
    (cwd tpl : List (String × FsTree)) (fields : List (String × Json))
    (hne : ¬ name = "")
    (hfresh : lookupEntry cwd name = none)
    (hman : lookupEntry tpl "package.json" =
      some (.file (.jsonData (Json.obj fields))))
    (hsetup : ans.setupEnvironment = true)
    (hnoex : lookupEntry tpl ".env.example" = none) :
    (runCreateProject (some name) opts ans ext cwd tpl).exitCode = 0 ∧
    Event.stepOk "Environment variables set up" ∈
      (runCreateProject (some name) opts ans ext cwd tpl).events ∧
    Event.stepWarn "Could not set up environment variables" ∉
      (runCreateProject (some name) opts ans ext cwd tpl).events := by
  have hrun : runCreateProject (some name) opts ans ext cwd tpl =
      finishRun name (resolvePM opts.packageManager ans.packageManager)
        ((!opts.skipInstall) && !(ans.installDependencies == some false))
        ((!opts.skipGit) && !(ans.initializeGit == some false))
        ans.setupEnvironment ext cwd tpl := by
    simp [runCreateProject, resolveName, hne, hfresh]
  have hnoex₁ : lookupEntry
      (setEntry tpl "package.json"
        (.file (.jsonData (Json.obj (setField fields "name" (Json.str name))))))
      ".env.example" = none := by
    rw [lookupEntry_setEntry_ne _ _ _ _ (by decide)]
    exact hnoex
  rw [hrun, hsetup,
    finishRun_ok name _ _ _ true ext cwd tpl _ (manifestStep_obj name tpl fields hman),
    envStep_true_absent ext _ hnoex₁]
  refine ⟨rfl, ?_, ?_⟩
  · exact List.mem_append_left _ (List.mem_append_left _ (List.mem_append_left _
      (List.mem_append_right _ (List.mem_singleton.mpr rfl))))
  · intro hmem
    rcases List.mem_append.mp hmem with h1 | hdone
    · rcases List.mem_append.mp h1 with h2 | hinst
      · rcases List.mem_append.mp h2 with h3 | hgit
        · rcases List.mem_append.mp h3 with hc | he
          · simp at hc
          · simp at he
        · exact stepWarn_notin_gitStep "Could not set up environment variables"
            _ ext (by decide) hgit
      · exact stepWarn_notin_installStep _ _ _ _ ext hinst
    · exact stepWarn_notin_doneEvents _ _ _ _ hdone

/-- C7 witness: a concrete run with the example file absent. -/
theorem env_setup_absent_reports_success_w :
    (runCreateProject (some "my-second-app") exOptsSkip exAnsDefaults exExtOk
      [] exTplNoEnv).exitCode = 0 ∧
    Event.stepOk "Environment variables set up" ∈
      (runCreateProject (some "my-second-app") exOptsSkip exAnsDefaults exExtOk
        [] exTplNoEnv).events ∧
    Event.stepWarn "Could not set up environment variables" ∉
      (runCreateProject (some "my-second-app") exOptsSkip exAnsDefaults exExtOk
        [] exTplNoEnv).events :=
  env_setup_absent_reports_success "my-second-app" exOptsSkip exAnsDefaults
    exExtOk [] exTplNoEnv
    [("name", Json.str "my-react-app"), ("version", Json.str "0.1.0")]
    (by decide) rfl rfl rfl rfl

/-- C8: when the dependency-install command fails, the failure is caught at
the step boundary: the spinner failure and a warning containing the exact
manual install command are printed, the run is not aborted, and the overall
success summary is still emitted with exit code 0. -/
theorem install_failure_warns_not_fatal (name : String)
    (opts : CliOptions) (ans : PromptAnswers) (ext : ExternalEnv)
    (cwd tpl : List (String × FsTree)) (fields : List (String × Json))
    (hne : ¬ name = "")
    (hfresh : lookupEntry cwd name = none)
    (hman : lookupEntry tpl "package.json" =
      some (.file (.jsonData (Json.obj fields))))
    (hpm : opts.packageManager = "npm")
    (hskipI : opts.skipInstall = false)
    (hID : (ans.installDependencies == some false) = false)
    (hio : ext.installOk = false) :
    (runCreateProject (some name) opts ans ext cwd tpl).exitCode = 0 ∧
    Event.stepFail "Failed to install dependencies" ∈
      (runCreateProject (some name) opts ans ext cwd tpl).events ∧
    Event.info ("cd " ++ name ++ " && npm install") ∈
      (runCreateProject (some name) opts ans ext cwd tpl).events ∧
    Event.done "Project created successfully!" ∈
      (runCreateProject (some name) opts ans ext cwd tpl).events := by
  have hrun : runCreateProject (some name) opts ans ext cwd tpl =
      finishRun name (resolvePM opts.packageManager ans.packageManager)
        ((!opts.skipInstall) && !(ans.installDependencies == some false))
        ((!opts.skipGit) && !(ans.initializeGit == some false))
        ans.setupEnvironment ext cwd tpl := by
    simp [runCreateProject, resolveName, hne, hfresh]
  have hrpm : resolvePM opts.packageManager ans.packageManager = "npm" := by
    rw [hpm]
    rfl
  have hinstall : ((!opts.skipInstall) && !(ans.installDependencies == some false)) = true := by
    rw [hskipI, hID]
    rfl
  rw [hrun, hrpm, hinstall,
    finishRun_ok name "npm" true _ ans.setupEnvironment ext cwd tpl _
      (manifestStep_obj name tpl fields hman)]
  have hinst : installStep true "npm" name ext =
      [.stepFail "Failed to install dependencies",
       .info "You can install dependencies manually by running:",
       .info ("cd " ++ name ++ " && npm install")] := by
    simp only [installStep, hio, Bool.and_false, if_true, if_false, Bool.false_eq_true,
      ite_false, ite_true]
    rw [String.append_assoc, String.append_assoc]
    rfl
  rw [hinst]
  refine ⟨rfl, ?_, ?_, ?_⟩
  · exact List.mem_append_left _ (List.mem_append_right _ (by simp))
  · exact List.mem_append_left _ (List.mem_append_right _ (by simp))
  · exact List.mem_append_right _ (by simp [doneEvents])

/-- C8 witness: a concrete run with a failing install. -/
theorem install_failure_warns_not_fatal_w :
    (runCreateProject (some "fail-app") exOptsFull exAnsDefaults
      exExtInstallFails [] exTplNoEnv).exitCode = 0 ∧
    Event.stepFail "Failed to install dependencies" ∈
      (runCreateProject (some "fail-app") exOptsFull exAnsDefaults
        exExtInstallFails [] exTplNoEnv).events ∧
    Event.info ("cd " ++ "fail-app" ++ " && npm install") ∈
      (runCreateProject (some "fail-app") exOptsFull exAnsDefaults
        exExtInstallFails [] exTplNoEnv).events ∧
    Event.done "Project created successfully!" ∈
      (runCreateProject (some "fail-app") exOptsFull exAnsDefaults
        exExtInstallFails [] exTplNoEnv).events :=
  install_failure_warns_not_fatal "fail-app" exOptsFull exAnsDefaults
    exExtInstallFails [] exTplNoEnv
    [("name", Json.str "my-react-app"), ("version", Json.str "0.1.0")]
    (by decide) rfl rfl rfl rfl rfl rfl

/-- C9 counterexample: a run in which every essential file exists but the
manifest kept the wrong name — the harness prints the failure and exits 1,
yet the test project directory is still on disk, contradicting the claim
that the directory is removed on assertion failure. -/
theorem harness_failure_leaves_dir_c :
    (runTestCLI exHarnessWrongName).exitCode = 1 ∧
    (runTestCLI exHarnessWrongName).dirPresent = true ∧
    (runTestCLI exHarnessWrongName).failureMsg = some "Package name not updated" := by
  refine ⟨by decide, by decide, rfl⟩

/-- C9 (amended): on any assertion failure after the CLI has created the test
project, the harness prints the failure and exits non-zero, but leaves the
test project directory in place (the `catch` inside `testCLI` calls
`process.exit(1)` without running `cleanup()`). -/
theorem harness_failure_prints_and_exits_nonzero (env : HarnessEnv)
    (hbuild : env.buildThrows = false) (hcli : env.cliThrows = false)
    (hcreated : env.cliCreatesDir = true)
    (hfail : (runTestCLI env).exitCode ≠ 0) :
    (runTestCLI env).dirPresent = true ∧
    (runTestCLI env).failureMsg.isSome = true := by
  revert hfail
  unfold runTestCLI
  simp only [hbuild, hcli, hcreated, Bool.not_true, Bool.false_eq_true, if_false]
  repeat' split
  all_goals intro hfail
  all_goals first
    | exact ⟨rfl, rfl⟩
    | exact absurd rfl hfail

/-- C9 witness: a concrete run with an essential file missing. -/
theorem harness_failure_prints_and_exits_nonzero_w :
    (runTestCLI exHarnessMissingFile).exitCode ≠ 0 ∧
    (runTestCLI exHarnessMissingFile).dirPresent = true ∧
    (runTestCLI exHarnessMissingFile).failureMsg.isSome = true := by
  refine ⟨by decide, ?_⟩
  exact harness_failure_prints_and_exits_nonzero exHarnessMissingFile rfl rfl rfl
    (by decide)

/-- C10 counterexample: an empty-string positional argument is falsy, so the
generator does not use it as the target directory name — it falls back to the
prompted name instead, contradicting the claim for every supplied string. -/
theorem empty_arg_falls_back_to_prompt_c :
    lookupEntry (runCreateProject (some "") exOptsSkip exAnsDefaults exExtOk
      [] exTplNoEnv).cwd "" = none ∧
    (lookupEntry (runCreateProject (some "") exOptsSkip exAnsDefaults exExtOk
      [] exTplNoEnv).cwd "my-react-app").isSome = true :=
  ⟨rfl, rfl⟩

/-- C10 (amended): every non-empty positional argument — even one failing the
interactive validation pattern, e.g. containing a space — is accepted without
validation and used directly as the target directory name; only an empty
argument falls back to the validated interactive prompt. -/
theorem positional_arg_used_unvalidated (s : String)
    (opts : CliOptions) (ans : PromptAnswers) (ext : ExternalEnv)
    (cwd tpl : List (String × FsTree)) (fields : List (String × Json))
    (hne : ¬ s = "")
    (hinvalid : validateProjectName s = false)
    (hfresh : lookupEntry cwd s = none)
    (hman : lookupEntry tpl "package.json" =
      some (.file (.jsonData (Json.obj fields)))) :
    (runCreateProject (some s) opts ans ext cwd tpl).exitCode = 0 ∧
    (lookupEntry (runCreateProject (some s) opts ans ext cwd tpl).cwd s).isSome = true := by
  have hrun : runCreateProject (some s) opts ans ext cwd tpl =
      finishRun s (resolvePM opts.packageManager ans.packageManager)
        ((!opts.skipInstall) && !(ans.installDependencies == some false))
        ((!opts.skipGit) && !(ans.initializeGit == some false))
        ans.setupEnvironment ext cwd tpl := by
    simp [runCreateProject, resolveName, hne, hfresh]
  rw [hrun, finishRun_ok s _ _ _ ans.setupEnvironment ext cwd tpl _
    (manifestStep_obj s tpl fields hman)]
  refine ⟨rfl, ?_⟩
  rw [lookupEntry_setEntry_self]
  rfl

/-- C10 witness: `"my app"` contains a space, fails validation, and is still
used directly as the target directory name. -/
theorem positional_arg_used_unvalidated_w :
    validateProjectName "my app" = false ∧
    (runCreateProject (some "my app") exOptsSkip exAnsNoEnv exExtOk
      [] exTplNoEnv).exitCode = 0 ∧
    (lookupEntry (runCreateProject (some "my app") exOptsSkip exAnsNoEnv exExtOk
      [] exTplNoEnv).cwd "my app").isSome = true := by
  refine ⟨by decide, ?_⟩
  exact positional_arg_used_unvalidated "my app" exOptsSkip exAnsNoEnv exExtOk
    [] exTplNoEnv
    [("name", Json.str "my-react-app"), ("version", Json.str "0.1.0")]
    (by decide) (by decide) rfl rfl
